import Mathlib

/-!
Shallow embedding of the `pebl` reactive-value core and proofs about it.

The embedding follows the Rust sources of the repository:
  * `src/obsv.rs`  — `Observable<T>` / `ObservableData<T>`, `InvalidationHandler`,
    `ObservablePtr<T>` with its guarded views, and the runtime `BorrowCounts` tracker;
  * `src/weak.rs`  — `WeakList<T>`, the lazily compacted list of weak references;
  * `src/expr/mod.rs` and `src/expr/math.rs` — the `Expression` trait with its
    `UnaryExpression` / `BinaryExpression` nodes and the `plus` combinator.

Rust panics are modeled as `Except.error`; the firing of listener callbacks is
modeled by returning the list of the invoked callbacks' identities; the liveness of
a weak reference at the moment of an operation is modeled by an `alive` flag on the
entry (`Weak::upgrade` succeeds exactly while the referent's last strong reference
has not been dropped).
-/

namespace Pebl

/-- Mirrors `BorrowCounts` (`src/obsv.rs` lines 426-429): `immutable` counts the
outstanding shared borrows, `mutable` records whether an exclusive borrow is
outstanding. -/
structure BorrowCounts where
  immutable : Nat
  mutable : Bool
deriving DecidableEq

/-- Mirrors `BorrowCounts::new` (`src/obsv.rs` lines 432-434). -/
def BorrowCounts.new : BorrowCounts :=
  { immutable := 0, mutable := false }

/-- Mirrors `BorrowCounts::count_borrow` (`src/obsv.rs` lines 436-442): panics
(modeled as `Except.error`) when an exclusive borrow is outstanding, otherwise
increments the shared count. -/
def BorrowCounts.count_borrow (c : BorrowCounts) : Except String BorrowCounts :=
  if c.mutable then Except.error "value already mutably borrowed"
  else Except.ok { c with immutable := c.immutable + 1 }

/-- Mirrors `BorrowCounts::count_borrow_mut` (`src/obsv.rs` lines 444-454): panics
when an exclusive borrow is outstanding, then when any shared borrow is outstanding,
otherwise records the exclusive borrow. -/
def BorrowCounts.count_borrow_mut (c : BorrowCounts) : Except String BorrowCounts :=
  if c.mutable then Except.error "value already mutably borrowed"
  else if 0 < c.immutable then Except.error "value already immutably borrowed"
  else Except.ok { c with mutable := true }

/-- Mirrors `BorrowCounts::count_unborrow` (`src/obsv.rs` lines 456-462): panics when
no shared borrow is outstanding, otherwise decrements the shared count. -/
def BorrowCounts.count_unborrow (c : BorrowCounts) : Except String BorrowCounts :=
  if c.immutable = 0 then Except.error "invalid immutable release borrow"
  else Except.ok { c with immutable := c.immutable - 1 }

/-- Mirrors `BorrowCounts::count_unborrow_mut` (`src/obsv.rs` lines 464-470): panics
when no exclusive borrow is outstanding, otherwise clears the exclusive flag. -/
def BorrowCounts.count_unborrow_mut (c : BorrowCounts) : Except String BorrowCounts :=
  if c.mutable then Except.ok { c with mutable := false }
  else Except.error "invalid mutable release borrow"

/-- One entry of a `WeakList` (`src/weak.rs` line 46, `Vec<Weak<T>>`): a weak
reference identified by the address `id` of its referent; `alive` abstracts whether
`Weak::upgrade` currently succeeds, i.e. whether the referent's last strong
reference has been dropped. -/
structure WeakRef where
  id : Nat
  alive : Bool
deriving DecidableEq

/-- Mirrors `WeakList::clean` (`src/weak.rs` lines 179-181): retain exactly the
entries whose referent can still be upgraded. -/
def WeakList.clean (l : List WeakRef) : List WeakRef :=
  l.filter (fun w => w.alive)

/-- Mirrors `WeakList::upgrade` (`src/weak.rs` lines 127-138): first `clean` the
backing store in place, then collect an upgraded strong reference for each remaining
entry whose upgrade succeeds. Returns the collected strong references together with
the new backing store (the Rust method mutates the store through its `RefCell`). -/
def WeakList.upgrade (l : List WeakRef) : List WeakRef × List WeakRef :=
  let cleaned := WeakList.clean l
  (cleaned.filterMap (fun w => if w.alive then some w else none), cleaned)

/-- Mirrors `WeakList::len` (`src/weak.rs` lines 163-166): `clean`, then report the
length of what remains; returns the count together with the compacted backing
store. -/
def WeakList.len (l : List WeakRef) : Nat × List WeakRef :=
  let cleaned := WeakList.clean l
  (cleaned.length, cleaned)

/-- Mirrors `WeakList::push` (`src/weak.rs` lines 106-108): append a weak reference
for the item at the tail of the backing store. -/
def WeakList.push (l : List WeakRef) (w : WeakRef) : List WeakRef :=
  l ++ [w]

/-- The identities of the currently-live listener entries of a list, in order: these
are exactly the callbacks that a `fire_invalidated` at this instant would invoke. -/
def liveIds (l : List WeakRef) : List Nat :=
  (l.filter (fun w => w.alive)).map (fun w => w.id)

/-- Mirrors `ObservableData<T>` (`src/obsv.rs` lines 33-38). The `handle : Rc<()>`
liveness token is modeled separately by `PWorld` below; `on_invalidated` holds the
weak listener entries, each identified by the address of the registered callback. -/
structure ObservableData (T : Type) where
  value : T
  borrow_counts : BorrowCounts
  on_invalidated : List WeakRef

/-- Mirrors `ObservableData::fire_invalidated` (`src/obsv.rs` lines 59-63): upgrade
the listener list (which also compacts its backing store) and invoke each upgraded
callback once, in order; the returned list records the ids of the callbacks
invoked. -/
def ObservableData.fire_invalidated {T : Type} (d : ObservableData T) :
    ObservableData T × List Nat :=
  let res := WeakList.upgrade d.on_invalidated
  ({ d with on_invalidated := res.2 }, res.1.map (fun w => w.id))

/-- Mirrors `ObservableData::set` (`src/obsv.rs` lines 51-56): when the new value
differs from the current one, store it and fire the invalidation callbacks;
otherwise do nothing. Returns the updated data and the ids of the callbacks
invoked. -/
def ObservableData.set {T : Type} [DecidableEq T] (d : ObservableData T) (v : T) :
    ObservableData T × List Nat :=
  if d.value ≠ v then
    ObservableData.fire_invalidated { d with value := v }
  else
    (d, [])

/-- Mirrors the `Drop` impl of `ObservableData` (`src/obsv.rs` lines 66-70):
destruction fires one final invalidation; the result is the list of the callback ids
invoked during destruction. -/
def ObservableData.dropFires {T : Type} (d : ObservableData T) : List Nat :=
  (ObservableData.fire_invalidated d).2

/-- Models dropping the last strong reference to the `InvalidationHandler`
(`src/obsv.rs` lines 22-30) whose callback has id `hid`: every weak listener entry
pointing at that callback stops upgrading from now on. -/
def ObservableData.dropHandler {T : Type} (hid : Nat) (d : ObservableData T) :
    ObservableData T :=
  { d with on_invalidated :=
      d.on_invalidated.map (fun w => if w.id = hid then { w with alive := false } else w) }

/-- Mirrors `Observable::get` (`src/obsv.rs` lines 110-112): `&self.get_data().get()`
returns the current value directly; no borrow count is consulted or changed. -/
def Observable.get {T : Type} (d : ObservableData T) : T :=
  d.value

/-- Mirrors `Observable::set` (`src/obsv.rs` lines 116-118), which delegates to
`ObservableData::set`; no borrow count is consulted or changed. -/
def Observable.set {T : Type} [DecidableEq T] (d : ObservableData T) (v : T) :
    ObservableData T × List Nat :=
  ObservableData.set d v

/-- Mirrors `Observable::add_invalidation_handler` (`src/obsv.rs` lines 140-142):
push a weak reference to the handler's callback (identified by `hid`, alive while
the handler's strong `Rc` lives) onto the listener list. -/
def Observable.add_invalidation_handler {T : Type} (d : ObservableData T) (hid : Nat) :
    ObservableData T :=
  { d with on_invalidated := WeakList.push d.on_invalidated { id := hid, alive := true } }

/-- Mirrors `Observable::modify_inner` together with the `ModifyInnerRef` lifecycle
(`src/obsv.rs` lines 134-137 and 253-282): `ModifyInnerRef::new` acquires the
exclusive borrow (panicking if any borrow is outstanding), the caller mutates the
value in place through the guard (`f`), and `Drop for ModifyInnerRef` releases the
borrow and then calls `fire_invalidated` unconditionally — no equality comparison
of old and new value is made anywhere on this path. -/
def Observable.modify_inner {T : Type} (d : ObservableData T) (f : T → T) :
    Except String (ObservableData T × List Nat) :=
  match BorrowCounts.count_borrow_mut d.borrow_counts with
  | Except.error m => Except.error m
  | Except.ok c1 =>
    match BorrowCounts.count_unborrow_mut c1 with
    | Except.error m => Except.error m
    | Except.ok c2 =>
      Except.ok (ObservableData.fire_invalidated
        { value := f d.value, borrow_counts := c2, on_invalidated := d.on_invalidated })

/-- Mirrors `ObservableRef::new` (`src/obsv.rs` lines 182-188), the path taken by
`ObservablePtr::try_deref` on a live target: the shared borrow is acquired via
`count_borrow` (which may panic); on success the target's borrow state is updated. -/
def ObservableRef.new {T : Type} (d : ObservableData T) : Except String (ObservableData T) :=
  match BorrowCounts.count_borrow d.borrow_counts with
  | Except.error m => Except.error m
  | Except.ok c => Except.ok { d with borrow_counts := c }

/-- Mirrors `ObservableMutRef::new` (`src/obsv.rs` lines 213-219), the path taken by
`ObservablePtr::try_deref_mut` on a live target: the exclusive borrow is acquired
via `count_borrow_mut` (which may panic). -/
def ObservableMutRef.new {T : Type} (d : ObservableData T) : Except String (ObservableData T) :=
  match BorrowCounts.count_borrow_mut d.borrow_counts with
  | Except.error m => Except.error m
  | Except.ok c => Except.ok { d with borrow_counts := c }

/-- Mirrors `Drop for ObservableRef` (`src/obsv.rs` lines 201-206): releasing the
guard calls `count_unborrow` on the target's borrow state. -/
def ObservableRef.dropRelease {T : Type} (d : ObservableData T) :
    Except String (ObservableData T) :=
  match BorrowCounts.count_unborrow d.borrow_counts with
  | Except.error m => Except.error m
  | Except.ok c => Except.ok { d with borrow_counts := c }

/-- Follows the spec's words for §4.2 `get()` ("shared access; requires a successful
`acquire_shared`"): the claimed variant of `Observable::get` that performs a shared
acquisition on every read. Declared only to compare the claimed behavior with
`Observable.get` as implemented; it is not a translation of any source function. -/
def Observable.getClaimed {T : Type} (d : ObservableData T) : Except String T :=
  match BorrowCounts.count_borrow d.borrow_counts with
  | Except.error m => Except.error m
  | Except.ok _ => Except.ok d.value

/-- A world of live observable cells, modeling the `Rc<()>` liveness handles of
`src/obsv.rs` (line 35) and the `Weak<()>`-based `ObservablePtr::can_deref` check
(lines 358-360): `cells` associates the id of each currently-live cell with its
value, and `nextId` is the next fresh id — ids are never reused, just as a freed
`Rc` allocation is never observable through an old `Weak` again. -/
structure PWorld (T : Type) where
  nextId : Nat
  cells : List (Nat × T)

/-- The operations that can affect a cell's liveness or value: creating a new cell
(`Observable::new`), destroying one (its `Drop`), and setting a live cell's value. -/
inductive POp (T : Type) where
  | create (v : T)
  | destroy (id : Nat)
  | setv (id : Nat) (v : T)

/-- One step of the world: `create` allocates a fresh id, `destroy` removes the cell,
`setv` updates the value of a live cell in place. -/
def PWorld.step {T : Type} (w : PWorld T) : POp T → PWorld T
  | POp.create v => { nextId := w.nextId + 1, cells := (w.nextId, v) :: w.cells }
  | POp.destroy i => { w with cells := w.cells.filter (fun c => c.1 ≠ i) }
  | POp.setv i v => { w with cells := w.cells.map (fun c => if c.1 = i then (i, v) else c) }

/-- Run a sequence of world operations in order. -/
def PWorld.run {T : Type} (w : PWorld T) (ops : List (POp T)) : PWorld T :=
  ops.foldl PWorld.step w

/-- The ids of the currently-live cells. -/
def PWorld.ids {T : Type} (w : PWorld T) : List Nat :=
  w.cells.map Prod.fst

/-- Well-formedness: every live cell's id has already been allocated. Creation
establishes this and every step preserves it. -/
def PWorld.WF {T : Type} (w : PWorld T) : Prop :=
  ∀ c ∈ w.cells, c.1 < w.nextId

/-- Mirrors `ObservablePtr::try_deref` (`src/obsv.rs` lines 330-335) combined with
`can_deref` (lines 358-360): if the target's liveness handle still upgrades, return
a view of the cell (its value), else `None`. The shared-borrow acquisition that
`ObservableRef::new` performs on this path is modeled by `ObservableRef.new`
above. -/
def ObservablePtr.try_deref {T : Type} (w : PWorld T) (p : Nat) : Option T :=
  Option.map Prod.snd (w.cells.find? (fun c => c.1 == p))

/-- Shallow embedding of the expression layer of `src/expr/mod.rs`. A `leaf` models
an operand cell reached through its weak pointer: `some v` while the cell is alive
holding `v`, `none` once the cell has been dropped. `unary` and `binary` carry their
combining function exactly as `UnaryExpression` and `BinaryExpression` do. -/
inductive Expr : Type → Type 1 where
  | leaf {α : Type} : Option α → Expr α
  | unary {α β : Type} : Expr α → (α → β) → Expr β
  | binary {α β γ : Type} : Expr α → Expr β → (α → β → γ) → Expr γ

/-- Mirrors `Expression::try_get`: a `UnaryExpression` (`src/expr/mod.rs` lines
176-178) maps its function over the operand's `try_get`; a `BinaryExpression`
(lines 200-204) returns `None` when either operand's `try_get` does, and otherwise
applies its function to the two unwrapped values. -/
def Expr.tryGet {α : Type} : Expr α → Option α
  | Expr.leaf o => o
  | Expr.unary src f => Option.map f (Expr.tryGet src)
  | Expr.binary l r f =>
    match Expr.tryGet l, Expr.tryGet r with
    | some a, some b => some (f a b)
    | _, _ => none

/-- Mirrors the provided `Expression::get` (`src/expr/mod.rs` lines 20-22):
`self.try_get().unwrap()`; the `unwrap` panic on `None` is modeled as
`Except.error`. -/
def Expr.get {α : Type} (e : Expr α) : Except String α :=
  match Expr.tryGet e with
  | some v => Except.ok v
  | none => Except.error "unwrap called on a None value"

/-- Instrumented evaluator: computes `tryGet` together with the number of
combining-function invocations that the single call performs. As in the source, a
node's function is invoked exactly when all of its operand values are present. -/
def Expr.tryGetCount {α : Type} : Expr α → Option α × Nat
  | Expr.leaf o => (o, 0)
  | Expr.unary src f =>
    let res := Expr.tryGetCount src
    (Option.map f res.1, res.2 + (if res.1.isSome then 1 else 0))
  | Expr.binary l r f =>
    let resl := Expr.tryGetCount l
    let resr := Expr.tryGetCount r
    match resl.1, resr.1 with
    | some a, some b => (some (f a b), resl.2 + resr.2 + 1)
    | _, _ => (none, resl.2 + resr.2)

/-- The sum expression of the missing-operand scenario: `plus(a, plus(b, c))` as
built by `expr::math::plus` (`src/expr/math.rs` lines 16-19) over three operand
cells, each modeled by the `Option` state of its weak pointer. -/
def sumExpr (a b c : Option Nat) : Expr Nat :=
  Expr.binary (Expr.leaf a)
    (Expr.binary (Expr.leaf b) (Expr.leaf c) (fun x y => x + y))
    (fun x y => x + y)

/-- Concrete observable used by witnesses: value 10, two live listeners (ids 1 and
3) and one dead one (id 2). -/
def obsC3 : ObservableData Nat :=
  { value := 10, borrow_counts := BorrowCounts.new,
    on_invalidated := [{ id := 1, alive := true }, { id := 2, alive := false },
                       { id := 3, alive := true }] }

/-- Concrete observable with an exclusive borrow outstanding, value 5, no
listeners. -/
def obsC5 : ObservableData Nat :=
  { value := 5, borrow_counts := { immutable := 0, mutable := true },
    on_invalidated := [] }

/-- Concrete observable used by the destruction witness: one live listener (id 4)
and one dead one (id 7). -/
def obsC7 : ObservableData Nat :=
  { value := 0, borrow_counts := BorrowCounts.new,
    on_invalidated := [{ id := 4, alive := true }, { id := 7, alive := false }] }

/-- Concrete observable used by the modify-in-place witness: free borrow state and
one live listener (id 1). -/
def obsC9 : ObservableData Nat :=
  { value := 5, borrow_counts := BorrowCounts.new,
    on_invalidated := [{ id := 1, alive := true }] }

/-- Concrete weak list used by the compaction witness: live ids 1 and 3, dead id
2. -/
def wlC8 : List WeakRef :=
  [{ id := 1, alive := true }, { id := 2, alive := false }, { id := 3, alive := true }]

/-- Filtering an already-compacted list for a second time changes nothing: every
entry of a cleaned backing store upgrades. -/
theorem filterMap_alive_eq_self (m : List WeakRef) (h : ∀ w ∈ m, w.alive = true) :
    m.filterMap (fun w => if w.alive then some w else none) = m := by
  induction m with
  | nil => rfl
  | cons a t ih =>
    have ha := h a (by simp)
    simp only [List.filterMap_cons, ha, if_pos]
    rw [ih (fun w hw => h w (by simp [hw]))]

/-- The strong references collected by `WeakList::upgrade` are exactly the cleaned
backing store: cleaning retains upgradable entries, so every retained upgrade
succeeds. -/
theorem upgrade_fst (l : List WeakRef) : (WeakList.upgrade l).1 = WeakList.clean l :=
  filterMap_alive_eq_self _ (fun _w hw => (List.mem_filter.mp hw).2)

/-- The callbacks invoked by a `fire_invalidated` are exactly the ids of the live
listener entries, in order. -/
theorem fire_snd {T : Type} (d : ObservableData T) :
    (ObservableData.fire_invalidated d).2 = liveIds d.on_invalidated := by
  show (WeakList.upgrade d.on_invalidated).1.map (fun w => w.id) = liveIds d.on_invalidated
  rw [upgrade_fst]
  rfl

/-- Firing invalidation leaves the value untouched. -/
theorem fire_fst_value {T : Type} (d : ObservableData T) :
    (ObservableData.fire_invalidated d).1.value = d.value := rfl

/-- Firing invalidation leaves the borrow state untouched. -/
theorem fire_fst_bc {T : Type} (d : ObservableData T) :
    (ObservableData.fire_invalidated d).1.borrow_counts = d.borrow_counts := rfl

/-- Firing invalidation compacts the listener store. -/
theorem fire_fst_inv {T : Type} (d : ObservableData T) :
    (ObservableData.fire_invalidated d).1.on_invalidated =
      WeakList.clean d.on_invalidated := rfl

/-- C6: acquiring shared access fails whenever an exclusive access is outstanding;
acquiring exclusive access fails whenever any shared or exclusive access is
outstanding; releasing a guard decrements the corresponding counter, and once the
last outstanding access is released an acquisition of either kind succeeds again. -/
theorem c6_borrow_guard_contract (c : BorrowCounts) :
    (c.mutable = true →
      BorrowCounts.count_borrow c = Except.error "value already mutably borrowed")
  ∧ ((c.mutable = true ∨ 0 < c.immutable) →
      ∃ m, BorrowCounts.count_borrow_mut c = Except.error m)
  ∧ (0 < c.immutable →
      BorrowCounts.count_unborrow c =
        Except.ok { immutable := c.immutable - 1, mutable := c.mutable })
  ∧ (c.mutable = true →
      BorrowCounts.count_unborrow_mut c =
        Except.ok { immutable := c.immutable, mutable := false })
  ∧ (c.immutable = 1 → c.mutable = false →
      BorrowCounts.count_unborrow c = Except.ok BorrowCounts.new ∧
      BorrowCounts.count_borrow BorrowCounts.new =
        Except.ok { immutable := 1, mutable := false } ∧
      BorrowCounts.count_borrow_mut BorrowCounts.new =
        Except.ok { immutable := 0, mutable := true })
  ∧ (c.immutable = 0 → c.mutable = true →
      BorrowCounts.count_unborrow_mut c = Except.ok BorrowCounts.new) := by
  obtain ⟨n, m⟩ := c
  refine ⟨?_, ?_, ?_, ?_, ?_, ?_⟩
  · intro h
    simp only at h
    simp [BorrowCounts.count_borrow, h]
  · intro h
    rcases h with h | h
    · simp only at h
      exact ⟨"value already mutably borrowed", by simp [BorrowCounts.count_borrow_mut, h]⟩
    · simp only at h
      cases m with
      | true =>
        exact ⟨"value already mutably borrowed", by simp [BorrowCounts.count_borrow_mut]⟩
      | false =>
        exact ⟨"value already immutably borrowed",
          by simp [BorrowCounts.count_borrow_mut, h]⟩
  · intro h
    simp only at h
    simp [BorrowCounts.count_unborrow, Nat.pos_iff_ne_zero.mp h]
  · intro h
    simp only at h
    simp [BorrowCounts.count_unborrow_mut, h]
  · intro h1 h2
    simp only at h1 h2
    subst h1; subst h2
    refine ⟨?_, ?_, ?_⟩ <;> rfl
  · intro h1 h2
    simp only at h1 h2
    subst h1; subst h2
    rfl

/-- Witness for C6 at concrete borrow states: shared acquisition on an exclusively
borrowed cell panics, and releasing the only shared borrow restores the fresh
state. -/
theorem c6_witness :
    BorrowCounts.count_borrow { immutable := 0, mutable := true } =
      Except.error "value already mutably borrowed"
  ∧ BorrowCounts.count_unborrow { immutable := 1, mutable := false } =
      Except.ok BorrowCounts.new := by
  constructor
  · exact (c6_borrow_guard_contract { immutable := 0, mutable := true }).1 rfl
  · exact ((c6_borrow_guard_contract { immutable := 1, mutable := false }).2.2.2.2.1
      rfl rfl).1

/-- C8: a traversal (`upgrade`) of a weak collection yields exactly the live
entries; `len` first compacts and then reports the count of currently-live entries;
after a full traversal the backing store contains no dead entry, with no explicit
cleanup call. -/
theorem c8_weaklist_compaction (l : List WeakRef) :
    (∀ w ∈ (WeakList.upgrade l).1, w.alive = true)
  ∧ (WeakList.upgrade l).1 = l.filter (fun w => w.alive)
  ∧ (WeakList.len l).1 = (l.filter (fun w => w.alive)).length
  ∧ (∀ w ∈ (WeakList.len l).2, w.alive = true)
  ∧ (∀ w ∈ (WeakList.upgrade l).2, w.alive = true) := by
  have hup : (WeakList.upgrade l).1 = WeakList.clean l := upgrade_fst l
  refine ⟨?_, hup, rfl, ?_, ?_⟩
  · intro w hw
    rw [hup] at hw
    exact (List.mem_filter.mp hw).2
  · intro w hw
    have hw2 : w ∈ WeakList.clean l := hw
    exact (List.mem_filter.mp hw2).2
  · intro w hw
    have hw2 : w ∈ WeakList.clean l := hw
    exact (List.mem_filter.mp hw2).2

/-- Witness for C8 on a concrete list with a dead middle entry: `len` compacts and
counts 2, and a live entry surfaced by the traversal is indeed live. -/
theorem c8_witness :
    (WeakList.len wlC8).1 = (wlC8.filter (fun w => w.alive)).length
  ∧ ({ id := 1, alive := true } : WeakRef).alive = true :=
  ⟨(c8_weaklist_compaction wlC8).2.2.1,
   (c8_weaklist_compaction wlC8).1 { id := 1, alive := true } (by decide)⟩

/-- C3: setting a different value stores it (a subsequent `get` returns it) and
invokes the callback of every live registered listener exactly once (listener
identities being distinct); setting the current value changes nothing and invokes
no listener. -/
theorem c3_set_semantics {T : Type} [DecidableEq T] (d : ObservableData T) (v : T) :
    (v ≠ d.value →
      Observable.get (Observable.set d v).1 = v ∧
      (Observable.set d v).2 = liveIds d.on_invalidated ∧
      (∀ w ∈ d.on_invalidated, w.alive = true →
        (d.on_invalidated.map (fun x => x.id)).Nodup →
        (Observable.set d v).2.count w.id = 1))
  ∧ Observable.set d d.value = (d, []) := by
  constructor
  · intro hne
    have hcond : d.value ≠ v := fun h => hne h.symm
    have hset : Observable.set d v =
        ObservableData.fire_invalidated { d with value := v } := by
      simp [Observable.set, ObservableData.set, hcond]
    have hfired : (Observable.set d v).2 = liveIds d.on_invalidated := by
      rw [hset]; exact fire_snd _
    refine ⟨?_, hfired, ?_⟩
    · show (Observable.set d v).1.value = v
      rw [hset]
      exact fire_fst_value _
    · intro w hw halive hnd
      rw [hfired]
      have hwf : w ∈ d.on_invalidated.filter (fun x => x.alive) :=
        List.mem_filter.mpr ⟨hw, halive⟩
      have hmem : w.id ∈ liveIds d.on_invalidated :=
        List.mem_map.mpr ⟨w, hwf, rfl⟩
      have hsub : List.Sublist (liveIds d.on_invalidated)
          (d.on_invalidated.map (fun x => x.id)) :=
        List.Sublist.map _ (List.filter_sublist _)
      have hndlive : (liveIds d.on_invalidated).Nodup := List.Nodup.sublist hsub hnd
      exact List.count_eq_one_of_mem hndlive hmem
  · have hrefl : ¬ (d.value ≠ d.value) := fun h => h rfl
    simp [Observable.set, ObservableData.set, hrefl]

/-- Witness for C3 on a concrete observable holding 10 with live listeners 1 and 3
and dead listener 2: `set 20` stores 20 and fires listener 1 exactly once. -/
theorem c3_witness :
    Observable.get (Observable.set obsC3 20).1 = 20 ∧
    (Observable.set obsC3 20).2.count 1 = 1 := by
  have h := (c3_set_semantics obsC3 20).1 (by decide)
  exact ⟨h.1, h.2.2 { id := 1, alive := true } (by decide) rfl (by decide)⟩

/-- C7: destroying an observable fires one final invalidation — the callback of
every listener still live at destruction time is invoked. -/
theorem c7_destruction_fires_live_listeners {T : Type} (d : ObservableData T) :
    ObservableData.dropFires d = liveIds d.on_invalidated
  ∧ (∀ w ∈ d.on_invalidated, w.alive = true → w.id ∈ ObservableData.dropFires d) := by
  have h : ObservableData.dropFires d = liveIds d.on_invalidated := fire_snd d
  refine ⟨h, ?_⟩
  intro w hw ha
  rw [h]
  exact List.mem_map.mpr ⟨w, List.mem_filter.mpr ⟨hw, ha⟩, rfl⟩

/-- Witness for C7: destroying the concrete observable with live listener 4 invokes
callback 4. -/
theorem c7_witness : (4 : Nat) ∈ ObservableData.dropFires obsC7 :=
  (c7_destruction_fires_live_listeners obsC7).2 { id := 4, alive := true } (by decide) rfl

/-- C9: completing a scoped in-place modification (the drop of the guard returned by
`modify_inner`) fires every live registered listener unconditionally — the mutation
`f` is arbitrary and may leave the value unchanged; no equality check guards the
firing. -/
theorem c9_modify_fires_unconditionally {T : Type} (d : ObservableData T) (f : T → T)
    (h1 : d.borrow_counts.immutable = 0) (h2 : d.borrow_counts.mutable = false) :
    ∃ d2, Observable.modify_inner d f = Except.ok (d2, liveIds d.on_invalidated)
      ∧ d2.value = f d.value := by
  obtain ⟨v, ⟨ni, mi⟩, ls⟩ := d
  simp only at h1 h2
  subst h1; subst h2
  refine ⟨(ObservableData.fire_invalidated
    { value := f v, borrow_counts := { immutable := 0, mutable := false },
      on_invalidated := ls }).1, ?_, rfl⟩
  have hred : Observable.modify_inner
      { value := v, borrow_counts := { immutable := 0, mutable := false },
        on_invalidated := ls } f =
      Except.ok (ObservableData.fire_invalidated
        { value := f v, borrow_counts := { immutable := 0, mutable := false },
          on_invalidated := ls }) := rfl
  have h2nd := fire_snd
    ({ value := f v, borrow_counts := { immutable := 0, mutable := false },
       on_invalidated := ls } : ObservableData T)
  rw [hred, ← h2nd]

/-- Witness for C9: on the concrete observable with value 5 and live listener 1,
modifying in place with the identity function leaves the value at 5 yet still fires
listener 1. -/
theorem c9_witness :
    ∃ d2, Observable.modify_inner obsC9 (fun x => x) = Except.ok (d2, [1])
      ∧ d2.value = 5 :=
  c9_modify_fires_unconditionally obsC9 (fun x => x) rfl rfl

/-- Either branch of `ObservableData::set` fires the live listeners or nothing. -/
theorem set_snd_cases {T : Type} [DecidableEq T] (d : ObservableData T) (v : T) :
    (Observable.set d v).2 = liveIds d.on_invalidated ∨ (Observable.set d v).2 = [] := by
  by_cases h : d.value ≠ v
  · left
    have hset : Observable.set d v =
        ObservableData.fire_invalidated { d with value := v } := by
      simp [Observable.set, ObservableData.set, h]
    rw [hset]
    exact fire_snd _
  · right
    simp [Observable.set, ObservableData.set, h]

/-- Once every weak entry for a callback id has gone dead, that id is never among
the live listener ids again. -/
theorem dropHandler_not_live {T : Type} (hid : Nat) (d : ObservableData T) :
    hid ∉ liveIds (ObservableData.dropHandler hid d).on_invalidated := by
  intro hmem
  unfold ObservableData.dropHandler liveIds at hmem
  obtain ⟨w, hw, hwid⟩ := List.mem_map.mp hmem
  have hw2 := List.mem_filter.mp hw
  obtain ⟨w0, hw0, hg⟩ := List.mem_map.mp hw2.1
  by_cases hcase : w0.id = hid
  · rw [if_pos hcase] at hg
    have halive := hw2.2
    rw [← hg] at halive
    simp at halive
  · rw [if_neg hcase] at hg
    rw [← hg] at hwid
    exact hcase hwid

/-- C10: listener registration is weak — after the handler's last strong reference
is dropped, the handler's callback is no longer a live entry of the listener
collection, and a subsequent value change fires every remaining listener but never
that callback. -/
theorem c10_weak_listener_forgotten {T : Type} [DecidableEq T]
    (d : ObservableData T) (hid : Nat) (v : T) :
    hid ∉ liveIds (ObservableData.dropHandler hid
        (Observable.add_invalidation_handler d hid)).on_invalidated
  ∧ hid ∉ (Observable.set
        (ObservableData.dropHandler hid (Observable.add_invalidation_handler d hid)) v).2 := by
  refine ⟨dropHandler_not_live hid _, ?_⟩
  rcases set_snd_cases (ObservableData.dropHandler hid
      (Observable.add_invalidation_handler d hid)) v with h | h
  · rw [h]
    exact dropHandler_not_live hid _
  · rw [h]
    exact List.not_mem_nil _

/-- Witness for C10: registering callback 5 on the concrete observable, dropping
its handler, then setting 99 does not invoke callback 5. -/
theorem c10_witness :
    (5 : Nat) ∉ (Observable.set (ObservableData.dropHandler 5
      (Observable.add_invalidation_handler obsC3 5)) 99).2 :=
  (c10_weak_listener_forgotten obsC3 5 99).2

/-- Counterexample to C5: with an exclusive borrow outstanding on `obsC5`, the
implemented `Observable::get` still returns the value (and `set` still succeeds),
performing no acquisition at all, whereas the claimed per-read shared acquisition
(`Observable.getClaimed`, the spec's wording) must fail on that same cell. -/
theorem c5_counterexample :
    Observable.get obsC5 = 5
  ∧ (Observable.set obsC5 7).1.value = 7
  ∧ Observable.getClaimed obsC5 = Except.error "value already mutably borrowed" := by
  refine ⟨rfl, ?_, rfl⟩
  decide

/-- C5 as amended: direct `Observable::get` and `Observable::set` perform no borrow
acquisition (they read and write regardless of the borrow state and leave the
counters untouched); the single-writer/many-readers rule is enforced only on
pointer-mediated accesses — `ObservableRef::new` acquires the shared borrow and
`ObservableMutRef::new` the exclusive one, panicking on violation. -/
theorem c5_guard_only_on_pointer_path {T : Type} [DecidableEq T]
    (d : ObservableData T) (v : T) :
    Observable.get d = d.value
  ∧ (Observable.set d v).1.borrow_counts = d.borrow_counts
  ∧ (d.borrow_counts.mutable = true →
      ObservableRef.new d = Except.error "value already mutably borrowed")
  ∧ (d.borrow_counts.mutable = false →
      ObservableRef.new d = Except.ok { d with borrow_counts :=
        { immutable := d.borrow_counts.immutable + 1, mutable := false } })
  ∧ ((d.borrow_counts.mutable = true ∨ 0 < d.borrow_counts.immutable) →
      ∃ m, ObservableMutRef.new d = Except.error m) := by
  refine ⟨rfl, ?_, ?_, ?_, ?_⟩
  · by_cases h : d.value ≠ v
    · have hset : Observable.set d v =
          ObservableData.fire_invalidated { d with value := v } := by
        simp [Observable.set, ObservableData.set, h]
      rw [hset]
      exact fire_fst_bc _
    · simp [Observable.set, ObservableData.set, h]
  · intro h
    simp [ObservableRef.new, BorrowCounts.count_borrow, h]
  · intro h
    simp [ObservableRef.new, BorrowCounts.count_borrow, h]
  · intro h
    rcases h with h | h
    · exact ⟨"value already mutably borrowed",
        by simp [ObservableMutRef.new, BorrowCounts.count_borrow_mut, h]⟩
    · cases hm : d.borrow_counts.mutable with
      | true =>
        exact ⟨"value already mutably borrowed",
          by simp [ObservableMutRef.new, BorrowCounts.count_borrow_mut, hm]⟩
      | false =>
        exact ⟨"value already immutably borrowed",
          by simp [ObservableMutRef.new, BorrowCounts.count_borrow_mut, hm, h]⟩

/-- Witness for C5: on `obsC5` (exclusive borrow outstanding) the direct read still
returns the stored value while the pointer-mediated shared acquisition panics. -/
theorem c5_witness :
    Observable.get obsC5 = obsC5.value
  ∧ ObservableRef.new obsC5 = Except.error "value already mutably borrowed" :=
  ⟨(c5_guard_only_on_pointer_path obsC5 0).1,
   (c5_guard_only_on_pointer_path obsC5 0).2.2.1 rfl⟩

/-- A pointer dereference fails exactly when the target id is no longer among the
live cells. -/
theorem try_deref_eq_none_iff {T : Type} (w : PWorld T) (p : Nat) :
    ObservablePtr.try_deref w p = none ↔ p ∉ PWorld.ids w := by
  unfold ObservablePtr.try_deref PWorld.ids
  rw [Option.map_eq_none', List.find?_eq_none]
  constructor
  · intro h hmem
    obtain ⟨c, hc, hcp⟩ := List.mem_map.mp hmem
    exact (h c hc) (by simp [hcp])
  · intro h c hc hbeq
    exact h (List.mem_map.mpr ⟨c, hc, by simpa using hbeq⟩)

/-- A pointer dereference succeeds exactly while the target id is live. -/
theorem try_deref_isSome_iff {T : Type} (w : PWorld T) (p : Nat) :
    (ObservablePtr.try_deref w p).isSome = true ↔ p ∈ PWorld.ids w := by
  have hnone := try_deref_eq_none_iff w p
  rw [Option.isSome_iff_ne_none]
  constructor
  · intro hne
    by_contra hmem
    exact hne (hnone.mpr hmem)
  · intro hmem hn
    exact (hnone.mp hn) hmem

/-- One world step preserves well-formedness, the already-allocated bound, and the
deadness of an already-destroyed id: `create` hands out only the fresh id,
`destroy` removes cells, `setv` changes no id. -/
theorem step_preserves_dead {T : Type} (w : PWorld T) (op : POp T) (p : Nat)
    (hWF : PWorld.WF w) (hlt : p < w.nextId) (hdead : p ∉ PWorld.ids w) :
    PWorld.WF (PWorld.step w op) ∧ p < (PWorld.step w op).nextId ∧
      p ∉ PWorld.ids (PWorld.step w op) := by
  cases op with
  | create v =>
    refine ⟨?_, ?_, ?_⟩
    · intro c hc
      show c.1 < w.nextId + 1
      have hc2 : c ∈ (w.nextId, v) :: w.cells := hc
      rcases List.mem_cons.mp hc2 with rfl | hmem
      · omega
      · exact Nat.lt_succ_of_lt (hWF c hmem)
    · exact Nat.lt_succ_of_lt hlt
    · intro hmem
      have hmem2 : p ∈ (w.nextId :: w.cells.map Prod.fst) := by
        simpa [PWorld.ids, PWorld.step] using hmem
      rcases List.mem_cons.mp hmem2 with h | h
      · omega
      · exact hdead (by simpa [PWorld.ids] using h)
  | destroy i =>
    refine ⟨?_, hlt, ?_⟩
    · intro c hc
      have hc2 : c ∈ w.cells := List.mem_filter.mp hc |>.1
      exact hWF c hc2
    · intro hmem
      obtain ⟨c, hc, hcp⟩ := List.mem_map.mp hmem
      have hc2 : c ∈ w.cells := List.mem_filter.mp hc |>.1
      exact hdead (List.mem_map.mpr ⟨c, hc2, hcp⟩)
  | setv i v =>
    have hids : PWorld.ids (PWorld.step w (POp.setv i v)) = PWorld.ids w := by
      unfold PWorld.ids PWorld.step
      rw [List.map_map]
      apply List.map_congr_left
      intro c _
      by_cases hcase : c.1 = i
      · simp [hcase]
      · simp [hcase]
    refine ⟨?_, hlt, ?_⟩
    · intro c hc
      show c.1 < w.nextId
      obtain ⟨c0, hc0, hg⟩ := List.mem_map.mp hc
      have hfst : c.1 = c0.1 := by
        rw [← hg]
        by_cases hcase : c0.1 = i
        · simp [hcase]
        · simp [hcase]
      rw [hfst]
      exact hWF c0 hc0
    · rw [hids]
      exact hdead
/-- Running any operation sequence never resurrects a destroyed id. -/
theorem run_preserves_dead {T : Type} (ops : List (POp T)) (w : PWorld T) (p : Nat)
    (hWF : PWorld.WF w) (hlt : p < w.nextId) (hdead : p ∉ PWorld.ids w) :
    p ∉ PWorld.ids (PWorld.run w ops) := by
  induction ops generalizing w with
  | nil => exact hdead
  | cons op rest ih =>
    obtain ⟨h1, h2, h3⟩ := step_preserves_dead w op p hWF hlt hdead
    exact ih (PWorld.step w op) h1 h2 h3

/-- C4: once `try_deref` on a weak pointer returns `None` (its target cell has been
destroyed), it returns `None` after every further sequence of world operations — a
dead pointer is never resurrected; conversely `try_deref` succeeds exactly while
the target cell is alive. -/
theorem c4_dead_pointer_stays_dead {T : Type} (w : PWorld T) (ops : List (POp T))
    (p : Nat) (hWF : PWorld.WF w) (hlt : p < w.nextId) :
    (ObservablePtr.try_deref w p = none →
      ObservablePtr.try_deref (PWorld.run w ops) p = none)
  ∧ ((ObservablePtr.try_deref w p).isSome = true ↔ p ∈ PWorld.ids w) := by
  refine ⟨?_, try_deref_isSome_iff w p⟩
  intro hnone
  have hdead := (try_deref_eq_none_iff w p).mp hnone
  exact (try_deref_eq_none_iff _ p).mpr (run_preserves_dead ops w p hWF hlt hdead)

/-- Witness for C4: in a world whose only ever-allocated cell (id 0) is already
destroyed, the pointer to id 0 still dereferences to `None` after a fresh cell is
created and written. -/
theorem c4_witness :
    ObservablePtr.try_deref
      (PWorld.run ({ nextId := 1, cells := [] } : PWorld Nat)
        [POp.create 7, POp.setv 0 3]) 0 = none := by
  refine (c4_dead_pointer_stays_dead ({ nextId := 1, cells := [] } : PWorld Nat)
    [POp.create 7, POp.setv 0 3] 0 ?_ ?_).1 rfl
  · intro c hc
    exact absurd hc (List.not_mem_nil c)
  · decide

/-- Counterexample to C1: build the sum expression `plus(a, plus(b, c))` over cells
holding 10, 20, 30, then drop the cell holding 20. `try_get` on the expression
returns `None` and `get()` — which unwraps — aborts; it does not yield 40 (the
absent addend is not replaced by 0). -/
theorem c1_counterexample :
    Expr.tryGet (sumExpr (some 10) none (some 30)) = none
  ∧ Expr.get (sumExpr (some 10) none (some 30)) =
      Except.error "unwrap called on a None value"
  ∧ Expr.get (sumExpr (some 10) none (some 30)) ≠ Except.ok 40 := by
  refine ⟨rfl, rfl, ?_⟩
  intro h
  exact Except.noConfusion h

/-- C1 as amended: a `BinaryExpression` propagates a missing operand as absence —
`try_get` is `None` exactly when either operand's `try_get` is — so after dropping
the cell holding 20 the sum expression's `try_get` is `None` (and its `get`, which
unwraps, aborts), while with all three cells alive it yields the full sum 60. -/
theorem c1_amended_absent_operand_propagates :
    (∀ (α β γ : Type) (l : Expr α) (r : Expr β) (f : α → β → γ),
      Expr.tryGet (Expr.binary l r f) = none ↔
        (Expr.tryGet l = none ∨ Expr.tryGet r = none))
  ∧ Expr.tryGet (sumExpr (some 10) none (some 30)) = none
  ∧ Expr.tryGet (sumExpr (some 10) (some 20) (some 30)) = some 60 := by
  refine ⟨?_, rfl, rfl⟩
  intro α β γ l r f
  cases hl : Expr.tryGet l <;> cases hr : Expr.tryGet r <;>
    simp [Expr.tryGet, hl, hr]

/-- Witness for C1 (amended): the absence characterization applied at a concrete
binary node whose left operand cell has been dropped. -/
theorem c1_witness :
    Expr.tryGet (Expr.binary (Expr.leaf (none : Option Nat)) (Expr.leaf (some 1))
      (fun x y => x + y)) = none :=
  (c1_amended_absent_operand_propagates.1 Nat Nat Nat (Expr.leaf none)
    (Expr.leaf (some 1)) (fun x y => x + y)).mpr (Or.inl rfl)

/-- A single call's instrumented result agrees with `try_get`: evaluation is pure,
so any two calls with no intervening mutation return the identical value. -/
theorem tryGetCount_fst {α : Type} (e : Expr α) :
    (Expr.tryGetCount e).1 = Expr.tryGet e := by
  induction e with
  | leaf o => rfl
  | unary src f ih => simp [Expr.tryGetCount, Expr.tryGet, ih]
  | binary l r f ihl ihr =>
    simp only [Expr.tryGetCount, Expr.tryGet, ← ihl, ← ihr]
    cases (Expr.tryGetCount l).1 <;> cases (Expr.tryGetCount r).1 <;> simp

/-- Counterexample to C2: `UnaryExpression`/`BinaryExpression` keep no cache and no
dirty flag, so every call — the second as much as the first — re-invokes the
combining function. On a unary node over a live operand, a single `try_get` call
performs exactly 1 invocation, not the 0 the claim requires of the second call. -/
theorem c2_counterexample :
    Expr.tryGetCount (Expr.unary (Expr.leaf (some 3)) (fun n : Nat => n + 1)) =
      (some 4, 1)
  ∧ (1 : Nat) ≠ 0 :=
  ⟨rfl, by decide⟩

/-- C2 as amended: calling `get()` twice with no intervening mutation returns the
identical value both times (evaluation is pure and stateless), but the combining
function is re-invoked on every call: each call over live operands performs at
least one combine invocation — there is no cached value returned while clean. -/
theorem c2_amended_recompute_each_call :
    (∀ (α : Type) (e : Expr α), (Expr.tryGetCount e).1 = Expr.tryGet e)
  ∧ (∀ (α β : Type) (src : Expr β) (f : β → α),
      (Expr.tryGet src).isSome = true →
      0 < (Expr.tryGetCount (Expr.unary src f)).2)
  ∧ (∀ (α β γ : Type) (l : Expr α) (r : Expr β) (f : α → β → γ),
      (Expr.tryGet l).isSome = true → (Expr.tryGet r).isSome = true →
      0 < (Expr.tryGetCount (Expr.binary l r f)).2) := by
  refine ⟨fun α e => tryGetCount_fst e, ?_, ?_⟩
  · intro α β src f h
    have h2 : (Expr.tryGetCount src).1.isSome = true := by
      rw [tryGetCount_fst]; exact h
    simp [Expr.tryGetCount, h2]
  · intro α β γ l r f hl hr
    have h2 : (Expr.tryGetCount l).1.isSome = true := by
      rw [tryGetCount_fst]; exact hl
    have h3 : (Expr.tryGetCount r).1.isSome = true := by
      rw [tryGetCount_fst]; exact hr
    obtain ⟨a, ha⟩ := Option.isSome_iff_exists.mp h2
    obtain ⟨b, hb⟩ := Option.isSome_iff_exists.mp h3
    simp [Expr.tryGetCount, ha, hb]

/-- Witness for C2 (amended): a unary node over a live leaf performs a positive
number of combine invocations on each call. -/
theorem c2_witness :
    0 < (Expr.tryGetCount (Expr.unary (Expr.leaf (some 5))
      (fun n : Nat => n * 2))).2 :=
  c2_amended_recompute_each_call.2.1 Nat Nat (Expr.leaf (some 5))
    (fun n => n * 2) rfl

end Pebl
